import Mathlib

/-!
# UnixDOOM: the DOOM / kernel bridge (`src/UnixDOOM.c`)

A shallow embedding of the bridge's storage adapters (`DoomRead`, `DoomWrite`,
`DoomSeek`, `DoomTell`, `DoomEof`), of `DoomGetEnv`, of the compositor
`doom_blt_to_framebuffer` and of the module entry point `unix_doom_init`,
followed by the properties proved about them.  The compositor is embedded
twice: on one memory holding surface and source alike
(`doom_blt_to_framebuffer_mem`), and with the surface and the source as two
memories (`doom_blt_to_framebuffer`), which is the same thing wherever the
stores stay clear of the source.

Conventions of the embedding

* A pointer that may be `NULL` is an `Option`; `none` is `NULL`.
* C integers are `Int`/`Nat` with the conversion written out: `to_int`
  (32-bit `int`), `to_loff_t` (64-bit `loff_t`), `to_size_t`, `to_uint`
  (32-bit `unsigned int`).  The module is built with the kernel's
  `-fno-strict-overflow`, so signed arithmetic wraps.
* Kernel primitives the bridge calls (`vfs_getattr`, `kernel_read`,
  `kernel_write`, `filp_open`, `ioremap`, ...) are not part of the repository;
  their results are parameters of the embedding.
-/

namespace UnixDOOM

/-! ## Machine integers -/

/-- Conversion to a 32-bit two's-complement `int`. -/
def to_int (x : Int) : Int := (x + 2147483648) % 4294967296 - 2147483648

/-- Conversion to a 64-bit two's-complement `loff_t` / `ssize_t`. -/
def to_loff_t (x : Int) : Int :=
  (x + 9223372036854775808) % 18446744073709551616 - 9223372036854775808

/-- Conversion to a 64-bit `size_t`. -/
def to_size_t (x : Int) : Int := x % 18446744073709551616

/-- Conversion to a 32-bit `unsigned int`. -/
def to_uint (x : Int) : Nat := (x % 4294967296).toNat

/-- The values of a 32-bit `int`. -/
def is_int (x : Int) : Prop := -2147483648 ≤ x ∧ x < 2147483648

/-- The values of a 64-bit `loff_t`. -/
def is_loff_t (x : Int) : Prop := -9223372036854775808 ≤ x ∧ x < 9223372036854775808

instance (x : Int) : Decidable (is_int x) := by unfold is_int; infer_instance

instance (x : Int) : Decidable (is_loff_t x) := by unfold is_loff_t; infer_instance

/-! ## Storage adapters -/

/-- The part of `struct file` the adapters touch: the cursor `f_pos` and the
path `f_path` the size query is made on. -/
structure file where
  f_pos : Int
  f_path : Nat
deriving DecidableEq, Repr

/-- The part of `struct kstat` the adapters read. -/
structure kstat where
  size : Int
deriving DecidableEq, Repr

/-- The kernel primitives the adapters call, as functions of their arguments.
`vfs_getattr` gives the error code and the `kstat` it filled in;
`kernel_read` and `kernel_write` take the file, the buffer address, the
`size_t` count and the position, and give the `ssize_t` result and the
position they leave in `*pos`. -/
structure Kernel where
  vfs_getattr : file → Int × kstat
  kernel_read : file → Nat → Int → Int → Int × Int
  kernel_write : file → Nat → Int → Int → Int × Int

/-- A call of a kernel I/O primitive, with its count and position arguments. -/
inductive kcall where
  | kernel_read (count : Int) (pos : Int)
  | kernel_write (count : Int) (pos : Int)
deriving DecidableEq, Repr

/-- What `DoomRead` / `DoomWrite` leave behind: the returned `int`, the file
object behind the handle, and the kernel I/O calls made, in order. -/
structure io_result where
  ret : Int
  filp : Option file
  calls : List kcall
deriving DecidableEq, Repr

/-- Embedding of `DoomRead` (UnixDOOM.c, lines 83-97). -/
def DoomRead (k : Kernel) (handle : Option file) (buf : Option Nat) (count : Int) :
    io_result :=
  match handle, buf with
  | none, _ => { ret := 0, filp := none, calls := [] }
  | some filp, none => { ret := 0, filp := some filp, calls := [] }
  | some filp, some b =>
    let pos := filp.f_pos
    let r := k.kernel_read filp b (to_size_t count) pos
    let bytes_read := r.1
    { ret := if bytes_read > 0 then to_int bytes_read else 0
      filp := some { filp with f_pos := r.2 }
      calls := [kcall.kernel_read (to_size_t count) pos] }

/-- Embedding of `DoomWrite` (UnixDOOM.c, lines 99-113). -/
def DoomWrite (k : Kernel) (handle : Option file) (buf : Option Nat) (count : Int) :
    io_result :=
  match handle, buf with
  | none, _ => { ret := 0, filp := none, calls := [] }
  | some filp, none => { ret := 0, filp := some filp, calls := [] }
  | some filp, some b =>
    if count ≤ 0 then { ret := 0, filp := some filp, calls := [] }
    else
      let pos := filp.f_pos
      let r := k.kernel_write filp b (to_size_t count) pos
      let bytes_written := r.1
      { ret := if bytes_written > 0 then to_int bytes_written else 0
        filp := some { filp with f_pos := r.2 }
        calls := [kcall.kernel_write (to_size_t count) pos] }

/-- Modelled from the spec: the enumeration `doom_seek_t` is declared in
PureDOOM.h, which is not among the sources.  The spec names its three origins
SET, CUR and END; `unrecognized` stands for any other value of the type, the
one the `default:` branch of a `switch` receives. -/
inductive doom_seek_t where
  | DOOM_SEEK_SET
  | DOOM_SEEK_CUR
  | DOOM_SEEK_END
  | unrecognized
deriving DecidableEq, Repr

/-- The tail of `DoomSeek` (lines 146-150): clamp, store, return 0. -/
def seek_store (filp : file) (new_pos : Int) : Int × Option file :=
  let new_pos := if new_pos < 0 then 0 else new_pos
  (0, some { filp with f_pos := new_pos })

/-- Embedding of `DoomSeek` (UnixDOOM.c, lines 115-151).  The result is the
returned `int` and the file object behind the handle afterwards.  `new_pos`
is a `loff_t`, so the two sums are taken in 64 bits. -/
def DoomSeek (k : Kernel) (handle : Option file) (offset : Int) (origin : doom_seek_t) :
    Int × Option file :=
  match handle with
  | none => (-1, none)
  | some filp =>
    match origin with
    | doom_seek_t.DOOM_SEEK_SET => seek_store filp offset
    | doom_seek_t.DOOM_SEEK_CUR => seek_store filp (to_loff_t (filp.f_pos + offset))
    | doom_seek_t.DOOM_SEEK_END =>
      let r := k.vfs_getattr filp
      if r.1 ≠ 0 then (-1, some filp)
      else seek_store filp (to_loff_t (r.2.size + offset))
    | doom_seek_t.unrecognized => (-1, some filp)

/-- Embedding of `DoomTell` (UnixDOOM.c, lines 153-161): the `loff_t` cursor
is returned through the function's `int` result. -/
def DoomTell (handle : Option file) : Int :=
  match handle with
  | none => -1
  | some filp => to_int filp.f_pos

/-- Embedding of `DoomEof` (UnixDOOM.c, lines 163-179). -/
def DoomEof (k : Kernel) (handle : Option file) : Int :=
  match handle with
  | none => 1
  | some filp =>
    let r := k.vfs_getattr filp
    if r.1 ≠ 0 then 1
    else if filp.f_pos ≥ r.2.size then 1 else 0

/-! ## Environment lookup -/

/-- The kernel's `strcmp` on C strings, each given by its characters before
the terminating NUL: the first differing position decides, and running out of
characters is meeting the terminator, which is below every character. -/
def strcmp : List Char → List Char → Int
  | [], [] => 0
  | [], _ :: _ => -1
  | _ :: _, [] => 1
  | c1 :: cs, c2 :: ct =>
    if c1 = c2 then strcmp cs ct else if c1.toNat < c2.toNat then -1 else 1

/-- The macro `DRIVE_ROOT`. -/
def DRIVE_ROOT : String := "/"

/-- Embedding of `DoomGetEnv` (UnixDOOM.c, lines 200-205). -/
def DoomGetEnv (var : String) : Option String :=
  if strcmp var.toList "HOME".toList = 0 then some DRIVE_ROOT else none

/-! ## Compositor -/

/-- The structure `fb_info_kernel`.  `fb_virt` is the mapped display memory it
points to, read the way the compositor reads it, as an array of 4-byte
`unsigned int` cells: `fb_virt i` is the content of cell `i`. -/
structure fb_info_kernel where
  fb_virt : Nat → Nat
  width : Nat
  height : Nat
  bpp : Nat
  line_length : Nat

/-- Sum of two `unsigned int`. -/
def uint_add (a b : Nat) : Nat := (a + b) % 4294967296

/-- Difference of two `unsigned int`. -/
def uint_sub (a b : Nat) : Nat := to_uint ((a : Int) - (b : Int))

/-- Product of two `unsigned int`. -/
def uint_mul (a b : Nat) : Nat := (a * b) % 4294967296

/-- The local `start_x` of `doom_blt_to_framebuffer` (line 218): the `int`
width is converted to `unsigned int` for the subtraction. -/
def start_x (fb_info : fb_info_kernel) (doom_width : Int) : Nat :=
  uint_sub fb_info.width (to_uint doom_width) / 2

/-- The local `start_y` of `doom_blt_to_framebuffer` (line 219). -/
def start_y (fb_info : fb_info_kernel) (doom_height : Int) : Nat :=
  uint_sub fb_info.height (to_uint doom_height) / 2

/-- The local `screen_pos` of the loop body (lines 223-224). -/
def screen_pos (fb_info : fb_info_kernel) (doom_width doom_height : Int) (x y : Nat) : Nat :=
  uint_add (uint_mul (uint_add (start_y fb_info doom_height) y) (fb_info.line_length / 4))
    (uint_add (start_x fb_info doom_width) x)

/-- The local `doom_pos` of the loop body (line 225). -/
def doom_pos (doom_width : Int) (x y : Nat) : Nat :=
  uint_add (uint_mul y (to_uint doom_width)) x

/-- The inner loop of `doom_blt_to_framebuffer` (lines 222-228) for one `y`:
`x` runs from 0 while `x < doom_width`, compared as `unsigned int`. -/
def blt_row (fb_info : fb_info_kernel) (doom_pixels : Nat → Nat)
    (doom_width doom_height : Int) (screen_pixels : Nat → Nat) (y : Nat) : Nat → Nat :=
  (List.range (to_uint doom_width)).foldl
    (fun scr x =>
      Function.update scr (screen_pos fb_info doom_width doom_height x y)
        (doom_pixels (doom_pos doom_width x y)))
    screen_pixels

/-- Embedding of `doom_blt_to_framebuffer` (UnixDOOM.c, lines 211-230) with
the surface and the source as two memories: `fb_info.fb_virt` is the display
memory and `doom_pixels` the source buffer, both read as `unsigned int`
cells.  The result is the structure with the display memory as the loops
leave it.  This is what the function does to the surface whenever none of its
stores falls on a source pixel, as when every store stays inside the surface
and the source lies outside it (`blt_mem_surface_view`);
`doom_blt_to_framebuffer_mem` is the embedding on one memory, which needs no
such condition. -/
def doom_blt_to_framebuffer (fb_info : fb_info_kernel) (doom_pixels : Nat → Nat)
    (doom_width doom_height : Int) : fb_info_kernel :=
  { fb_info with
    fb_virt :=
      (List.range (to_uint doom_height)).foldl
        (blt_row fb_info doom_pixels doom_width doom_height) fb_info.fb_virt }

/-- One pass of the loop of `doom_thread_func` (lines 238-241) on the display
memory, given the buffer `doom_get_framebuffer(4)` returned: the blit is
called with the fixed source size 320 x 200. -/
def doom_thread_blt (fb_info : fb_info_kernel) (fb : Nat → Nat) : fb_info_kernel :=
  doom_blt_to_framebuffer fb_info fb 320 200

/-- The stores of `doom_blt_to_framebuffer` in the order the loops make them,
each as (cell index, value stored). -/
def blt_writes (fb_info : fb_info_kernel) (doom_pixels : Nat → Nat)
    (doom_width doom_height : Int) : List (Nat × Nat) :=
  (List.range (to_uint doom_height)).flatMap (fun y =>
    (List.range (to_uint doom_width)).map (fun x =>
      (screen_pos fb_info doom_width doom_height x y,
        doom_pixels (doom_pos doom_width x y))))

/-- A list of stores carried out on a memory, first to last. -/
def apply_writes (ws : List (Nat × Nat)) (m : Nat → Nat) : Nat → Nat :=
  ws.foldl (fun scr p => Function.update scr p.1 p.2) m

/-- The inner loop of `doom_blt_to_framebuffer` (lines 222-228) for one `y`,
on one memory of 4-byte cells: `screen_pixels` and `doom_pixels` are the cell
addresses the two pointers hold, the store goes to cell
`screen_pixels + screen_pos` and takes the content cell
`doom_pixels + doom_pos` has at that moment. -/
def blt_row_mem (fb_info : fb_info_kernel) (screen_pixels doom_pixels : Nat)
    (doom_width doom_height : Int) (mem : Nat → Nat) (y : Nat) : Nat → Nat :=
  (List.range (to_uint doom_width)).foldl
    (fun m x =>
      Function.update m (screen_pixels + screen_pos fb_info doom_width doom_height x y)
        (m (doom_pixels + doom_pos doom_width x y)))
    mem

/-- Embedding of `doom_blt_to_framebuffer` (UnixDOOM.c, lines 211-230) on one
memory of 4-byte cells, in which the surface, the source and everything else
live.  `fb_info` gives the geometry fields, `screen_pixels` is the cell
address held by `fb_info->fb_virt` and `doom_pixels` the cell address held by
`doom_fb`; the field `fb_virt` of the Lean structure is not read here.  The
result is the memory as the loops leave it: a store that leaves the surface
lands wherever its address points, the source included. -/
def doom_blt_to_framebuffer_mem (fb_info : fb_info_kernel)
    (screen_pixels doom_pixels : Nat) (doom_width doom_height : Int)
    (mem : Nat → Nat) : Nat → Nat :=
  (List.range (to_uint doom_height)).foldl
    (blt_row_mem fb_info screen_pixels doom_pixels doom_width doom_height) mem

/-- The copies of `doom_blt_to_framebuffer` on one memory in the order the
loops make them, each as (cell stored to, cell read). -/
def blt_copies (fb_info : fb_info_kernel) (screen_pixels doom_pixels : Nat)
    (doom_width doom_height : Int) : List (Nat × Nat) :=
  (List.range (to_uint doom_height)).flatMap (fun y =>
    (List.range (to_uint doom_width)).map (fun x =>
      (screen_pixels + screen_pos fb_info doom_width doom_height x y,
        doom_pixels + doom_pos doom_width x y)))

/-- A list of cell-to-cell copies carried out on a memory, first to last. -/
def copy_cells (ps : List (Nat × Nat)) (m : Nat → Nat) : Nat → Nat :=
  ps.foldl (fun mem p => Function.update mem p.1 (mem p.2)) m

/-! ## Module initialisation -/

/-- The fields of the kernel's `struct fb_info` that `unix_doom_init` and
`init_fb` read (`var.xres`, `var.yres`, `var.bits_per_pixel`,
`fix.line_length`, `fix.smem_start`, `fix.smem_len`). -/
structure fb_info where
  xres : Nat
  yres : Nat
  bits_per_pixel : Nat
  line_length : Nat
  smem_start : Nat
  smem_len : Nat

/-- What `unix_doom_init` does to the rest of the kernel and to the engine, one
event per call, in program order.  A call that can fail carries its outcome. -/
inductive kevent where
  | printk (fmt : String)
  | input_register_handler (err : Int)
  | input_unregister_handler
  | filp_open (ok : Bool)
  | filp_close
  | ioremap (ok : Bool)
  | iounmap
  | kmalloc (ok : Bool)
  | kfree
  | doom_set_file_io
  | doom_set_malloc
  | doom_set_exit
  | doom_set_getenv
  | doom_set_gettime
  | doom_set_print
  | doom_init
  | kthread_create (ok : Bool)
  | wake_up_process
deriving DecidableEq, Repr

/-- The outcomes of the kernel calls `unix_doom_init` makes; a later outcome
is consulted only if the call is reached.  An error pointer `ERR_PTR(-n)`, n
from 1 to `MAX_ERRNO` = 4095, is `Except.error (n - 1)`.  `filp_open` gives
the opened file's `private_data` (null or a `struct fb_info`), `ioremap` the
mapped memory or null, `kmalloc` whether the allocation in `init_fb`
succeeds. -/
structure init_env where
  input_register_handler : Int
  filp_open : Except (Fin 4095) (Option fb_info)
  ioremap : Option (Nat → Nat)
  kmalloc : Bool
  kthread_create : Except (Fin 4095) Unit

/-- The kernel's `PTR_ERR` on the error pointer `Except.error e`. -/
def PTR_ERR (e : Fin 4095) : Int := -((e.val : Int) + 1)

/-- The kernel's `ENOMEM`. -/
def ENOMEM : Int := 12

/-- Embedding of `init_fb` (UnixDOOM.c, lines 338-352): the descriptor, or
null when `kmalloc` fails. -/
def init_fb (kmalloc_ok : Bool) (fb_virt : Nat → Nat) (info : fb_info) :
    Option fb_info_kernel :=
  if kmalloc_ok then
    some { fb_virt := fb_virt, width := info.xres, height := info.yres,
           bpp := info.bits_per_pixel, line_length := info.line_length }
  else none

/-- What a run of `unix_doom_init` leaves: the returned `int`, the events in
order, and the global `doom_fb_info_kernel`. -/
structure init_result where
  ret : Int
  trace : List kevent
  doom_fb_info_kernel : Option fb_info_kernel

/-- Embedding of `unix_doom_init` (UnixDOOM.c, lines 354-431). -/
def unix_doom_init (env : init_env) : init_result :=
  let t1 := [kevent.printk "Module loaded\n",
    kevent.input_register_handler env.input_register_handler]
  if env.input_register_handler ≠ 0 then
    { ret := env.input_register_handler
      trace := t1 ++ [kevent.printk "Input: Failed to register handler\n"]
      doom_fb_info_kernel := none }
  else
    match env.filp_open with
    | Except.error e =>
      { ret := to_int (PTR_ERR e)
        trace := t1 ++ [kevent.filp_open false, kevent.printk "Failed to open /dev/fb0\n",
          kevent.input_unregister_handler]
        doom_fb_info_kernel := none }
    | Except.ok none =>
      { ret := -ENOMEM
        trace := t1 ++ [kevent.filp_open true,
          kevent.printk "Failed to get framebuffer info\n",
          kevent.filp_close, kevent.input_unregister_handler]
        doom_fb_info_kernel := none }
    | Except.ok (some fb) =>
      let t2 := t1 ++ [kevent.filp_open true, kevent.printk "Found framebuffer: %s\n",
        kevent.printk "Resolution: %dx%d, %dbpp\n"]
      match env.ioremap with
      | none =>
        { ret := -ENOMEM
          trace := t2 ++ [kevent.ioremap false,
            kevent.printk "Failed to map framebuffer memory\n",
            kevent.filp_close, kevent.input_unregister_handler]
          doom_fb_info_kernel := none }
      | some fb_virt =>
        let t3 := t2 ++ [kevent.ioremap true, kevent.printk "unix_doom_init: fb_init = %p\n",
          kevent.kmalloc env.kmalloc]
        match init_fb env.kmalloc fb_virt fb with
        | none =>
          { ret := -ENOMEM
            trace := t3 ++ [kevent.printk "Failed to initialize framebuffer\n",
              kevent.filp_close, kevent.input_unregister_handler]
            doom_fb_info_kernel := none }
        | some fb_kernel =>
          let t4 := t3 ++ [kevent.doom_set_file_io, kevent.doom_set_malloc,
            kevent.doom_set_exit, kevent.doom_set_getenv, kevent.doom_set_gettime,
            kevent.doom_set_print, kevent.doom_init]
          match env.kthread_create with
          | Except.error e =>
            { ret := to_int (PTR_ERR e)
              trace := t4 ++ [kevent.kthread_create false,
                kevent.printk "Failed to start DOOM thread\n",
                kevent.input_unregister_handler]
              doom_fb_info_kernel := some fb_kernel }
          | Except.ok _ =>
            { ret := 0
              trace := t4 ++ [kevent.kthread_create true, kevent.wake_up_process,
                kevent.filp_close]
              doom_fb_info_kernel := some fb_kernel }

/-- The framebuffer description of a packed 1920 x 1080 display of 32-bit
pixels. -/
def hd_fb_info : fb_info :=
  { xres := 1920, yres := 1080, bits_per_pixel := 32, line_length := 7680,
    smem_start := 3758096384, smem_len := 8294400 }

/-- A run in which the display file cannot be opened (`-ENOENT`). -/
def env_open_fails : init_env :=
  { input_register_handler := 0, filp_open := Except.error 1, ioremap := none,
    kmalloc := false, kthread_create := Except.ok () }

/-- A run in which everything succeeds up to `init_fb`, whose `kmalloc`
fails. -/
def env_init_fb_fails : init_env :=
  { input_register_handler := 0, filp_open := Except.ok (some hd_fb_info),
    ioremap := some (fun _ => 0), kmalloc := false, kthread_create := Except.ok () }

/-- A run in which everything succeeds up to `kthread_create`, which fails
with `-ENOMEM`. -/
def env_kthread_fails : init_env :=
  { input_register_handler := 0, filp_open := Except.ok (some hd_fb_info),
    ioremap := some (fun _ => 0), kmalloc := true, kthread_create := Except.error 11 }

/-- A source buffer for concrete runs: cell `i` holds `i + 1`. -/
def ramp (i : Nat) : Nat := i + 1

/-- A zeroed 1920 x 1080 surface of 32-bit pixels, rows packed. -/
def hd_surface : fb_info_kernel :=
  { fb_virt := fun _ => 0, width := 1920, height := 1080, bpp := 32, line_length := 7680 }

/-- A zeroed surface one pixel wide and 131072 rows high with a stride of
65536 cells: it has 2^33 cells. -/
def tall_surface : fb_info_kernel :=
  { fb_virt := fun _ => 0, width := 1, height := 131072, bpp := 32, line_length := 262144 }

/-- A zeroed 65536 x 131072 surface of 32-bit pixels, rows packed: it has 2^33
cells. -/
def huge_surface : fb_info_kernel :=
  { fb_virt := fun _ => 0, width := 65536, height := 131072, bpp := 32,
    line_length := 262144 }

/-- A kernel for concrete runs: the size query gives `err` and `size`; a read
or write with a count above `SSIZE_MAX` fails with `-EINVAL`, a read
transfers what is left of the file from `pos`, a write transfers `count`
bytes. -/
def test_kernel (err size : Int) : Kernel where
  vfs_getattr := fun _ => (err, { size := size })
  kernel_read := fun _ _ count pos =>
    if count ≥ 9223372036854775808 then (-22, pos)
    else (min count (max 0 (size - pos)), pos + min count (max 0 (size - pos)))
  kernel_write := fun _ _ count pos =>
    if count ≥ 9223372036854775808 then (-22, pos) else (count, pos + count)

/-! ## Machine integers: basic facts -/

lemma to_int_of_is_int {x : Int} (h : is_int x) : to_int x = x := by
  unfold is_int at h
  unfold to_int
  omega

lemma to_loff_t_of_is_loff_t {x : Int} (h : is_loff_t x) : to_loff_t x = x := by
  unfold is_loff_t at h
  unfold to_loff_t
  omega

/-! ## Storage adapters: properties -/

lemma seek_store_fst (filp : file) (p : Int) : (seek_store filp p).1 = 0 := rfl

lemma seek_store_snd (filp : file) (p : Int) :
    (seek_store filp p).2 = some { filp with f_pos := max 0 p } := by
  unfold seek_store
  by_cases h : p < 0
  · simp [h, max_eq_left (le_of_lt h)]
  · simp [h, max_eq_right (not_lt.mp h)]

/-- C1. For a non-null handle whose cursor is not negative, `DoomSeek` leaves
a cursor that is not negative, whatever the offset and the origin (and
whatever the size query answers); `DoomSeek(handle, -5, DOOM_SEEK_SET)`
returns 0 and leaves the cursor at exactly 0. -/
theorem DoomSeek_cursor_nonneg (k : Kernel) (filp : file) (offset : Int)
    (origin : doom_seek_t) (hpos : 0 ≤ filp.f_pos) :
    (∃ f, (DoomSeek k (some filp) offset origin).2 = some f ∧ 0 ≤ f.f_pos) ∧
    DoomSeek k (some filp) (-5) doom_seek_t.DOOM_SEEK_SET =
      (0, some { filp with f_pos := 0 }) := by
  refine ⟨?_, ?_⟩
  · cases origin
    · exact ⟨_, seek_store_snd _ _, le_max_left _ _⟩
    · exact ⟨_, seek_store_snd _ _, le_max_left _ _⟩
    · by_cases h : (k.vfs_getattr filp).1 = 0
      · refine ⟨{ filp with f_pos := max 0 (to_loff_t ((k.vfs_getattr filp).2.size + offset)) },
          ?_, le_max_left _ _⟩
        simp [DoomSeek, h, seek_store_snd]
      · exact ⟨filp, by simp [DoomSeek, h], hpos⟩
    · exact ⟨filp, rfl, hpos⟩
  · simp [DoomSeek, seek_store]

/-- Witness for C1: a cursor at 7 and a seek of -100 from the end of a
40-byte file. -/
theorem DoomSeek_cursor_nonneg_witness :
    (∃ f, (DoomSeek (test_kernel 0 40) (some { f_pos := 7, f_path := 1 }) (-100)
        doom_seek_t.DOOM_SEEK_END).2 = some f ∧ 0 ≤ f.f_pos) ∧
    DoomSeek (test_kernel 0 40) (some { f_pos := 7, f_path := 1 }) (-5)
      doom_seek_t.DOOM_SEEK_SET = (0, some { f_pos := 0, f_path := 1 }) :=
  DoomSeek_cursor_nonneg (test_kernel 0 40) { f_pos := 7, f_path := 1 } (-100)
    doom_seek_t.DOOM_SEEK_END (by decide)

/-- C4 as stated fails: with the cursor at the largest `loff_t`, a seek of +1
from the current position returns 0 and leaves the cursor at 0, while
max(0, cursor + offset) is 2^63. -/
theorem DoomSeek_overflow_counterexample :
    DoomSeek (test_kernel 0 0) (some { f_pos := 9223372036854775807, f_path := 1 }) 1
        doom_seek_t.DOOM_SEEK_CUR = (0, some { f_pos := 0, f_path := 1 }) ∧
    is_loff_t 9223372036854775807 ∧ is_int 1 ∧
    max 0 ((9223372036854775807 : Int) + 1) ≠ 0 := by
  refine ⟨?_, by decide, by decide, by decide⟩
  simp [DoomSeek, seek_store, to_loff_t]

/-- C4, amended. `DoomSeek` returns -1 exactly when the handle is null, the
origin is none of SET/CUR/END, or the origin is END and the size query fails.
In every other case it returns 0 and stores max(0, target), where target is
the offset for SET and, for CUR and END, the sum cursor + offset or
size + offset taken in 64-bit `loff_t` arithmetic; whenever the exact sum is a
`loff_t` value the stored cursor is max(0, exact sum). -/
theorem DoomSeek_result (k : Kernel) (handle : Option file) (offset : Int)
    (origin : doom_seek_t) :
    ((DoomSeek k handle offset origin).1 = -1 ↔
      handle = none ∨ origin = doom_seek_t.unrecognized ∨
        (origin = doom_seek_t.DOOM_SEEK_END ∧
          ∃ filp, handle = some filp ∧ (k.vfs_getattr filp).1 ≠ 0)) ∧
    (∀ filp, handle = some filp →
      (origin = doom_seek_t.DOOM_SEEK_SET →
        DoomSeek k handle offset origin = (0, some { filp with f_pos := max 0 offset })) ∧
      (origin = doom_seek_t.DOOM_SEEK_CUR →
        DoomSeek k handle offset origin =
          (0, some { filp with f_pos := max 0 (to_loff_t (filp.f_pos + offset)) }) ∧
        (is_loff_t (filp.f_pos + offset) →
          DoomSeek k handle offset origin =
            (0, some { filp with f_pos := max 0 (filp.f_pos + offset) }))) ∧
      (origin = doom_seek_t.DOOM_SEEK_END → (k.vfs_getattr filp).1 = 0 →
        DoomSeek k handle offset origin =
          (0, some { filp with
            f_pos := max 0 (to_loff_t ((k.vfs_getattr filp).2.size + offset)) }) ∧
        (is_loff_t ((k.vfs_getattr filp).2.size + offset) →
          DoomSeek k handle offset origin =
            (0, some { filp with
              f_pos := max 0 ((k.vfs_getattr filp).2.size + offset) })))) := by
  refine ⟨?_, ?_⟩
  · cases handle with
    | none => simp [DoomSeek]
    | some filp =>
      cases origin
      · simp [DoomSeek, seek_store_fst]
      · simp [DoomSeek, seek_store_fst]
      · by_cases h : (k.vfs_getattr filp).1 = 0
        · simp [DoomSeek, h, seek_store_fst]
        · simp [DoomSeek, h]
      · simp [DoomSeek]
  · intro filp hh
    subst hh
    refine ⟨?_, ?_, ?_⟩
    · intro ho
      subst ho
      exact Prod.ext (seek_store_fst _ _) (seek_store_snd _ _)
    · intro ho
      subst ho
      have h1 : DoomSeek k (some filp) offset doom_seek_t.DOOM_SEEK_CUR =
          (0, some { filp with f_pos := max 0 (to_loff_t (filp.f_pos + offset)) }) :=
        Prod.ext (seek_store_fst _ _) (seek_store_snd _ _)
      refine ⟨h1, ?_⟩
      intro hr
      rw [h1, to_loff_t_of_is_loff_t hr]
    · intro ho hs
      subst ho
      have h1 : DoomSeek k (some filp) offset doom_seek_t.DOOM_SEEK_END =
          (0, some { filp with
            f_pos := max 0 (to_loff_t ((k.vfs_getattr filp).2.size + offset)) }) := by
        simp only [DoomSeek, hs, ne_eq, not_true_eq_false, if_false]
        exact Prod.ext (seek_store_fst _ _) (seek_store_snd _ _)
      refine ⟨h1, ?_⟩
      intro hr
      rw [h1, to_loff_t_of_is_loff_t hr]

/-- Witness for C4: a seek of -100 from the end of a 40-byte file returns 0
and leaves the cursor at max(0, 40 - 100) = 0. -/
theorem DoomSeek_result_witness :
    DoomSeek (test_kernel 0 40) (some { f_pos := 7, f_path := 1 }) (-100)
        doom_seek_t.DOOM_SEEK_END =
      (0, some { f_pos := max 0 (40 + -100), f_path := 1 }) :=
  ((((DoomSeek_result (test_kernel 0 40) (some { f_pos := 7, f_path := 1 }) (-100)
    doom_seek_t.DOOM_SEEK_END).2 { f_pos := 7, f_path := 1 } rfl).2.2 rfl rfl).2
    (by decide))

/-- C3 as stated fails: two seeks put the cursor of a fresh handle at 2^31;
on a 10-byte file `DoomEof` then returns 1 while `DoomTell` returns -2^31,
which is below the size. -/
theorem DoomEof_DoomTell_counterexample :
    (DoomSeek (test_kernel 0 10)
        (DoomSeek (test_kernel 0 10) (some { f_pos := 0, f_path := 1 }) 2147483647
          doom_seek_t.DOOM_SEEK_SET).2 1 doom_seek_t.DOOM_SEEK_CUR).2 =
      some { f_pos := 2147483648, f_path := 1 } ∧
    DoomEof (test_kernel 0 10) (some { f_pos := 2147483648, f_path := 1 }) = 1 ∧
    DoomTell (some { f_pos := 2147483648, f_path := 1 }) = -2147483648 ∧
    ¬ (DoomTell (some { f_pos := 2147483648, f_path := 1 }) ≥
        ((test_kernel 0 10).vfs_getattr { f_pos := 2147483648, f_path := 1 }).2.size) := by
  refine ⟨?_, ?_, ?_, ?_⟩
  · simp [DoomSeek, seek_store, to_loff_t, test_kernel]
  · simp [DoomEof, test_kernel]
  · simp [DoomTell, to_int]
  · simp [DoomTell, to_int, test_kernel]

/-- C3, amended. For a non-null handle whose size query succeeds, `DoomEof`
returns 1 if the 64-bit cursor `f_pos` is at or past the size and 0 otherwise;
`DoomTell` returns that cursor converted to `int`, so `DoomEof` returns 1
exactly when `DoomTell`'s value is at or past the size whenever the cursor is
an `int` value. -/
theorem DoomEof_iff (k : Kernel) (filp : file) (hstat : (k.vfs_getattr filp).1 = 0) :
    (DoomEof k (some filp) = 1 ∨ DoomEof k (some filp) = 0) ∧
    (DoomEof k (some filp) = 1 ↔ filp.f_pos ≥ (k.vfs_getattr filp).2.size) ∧
    (is_int filp.f_pos →
      (DoomEof k (some filp) = 1 ↔ DoomTell (some filp) ≥ (k.vfs_getattr filp).2.size)) := by
  have h2 : DoomEof k (some filp) = 1 ↔ filp.f_pos ≥ (k.vfs_getattr filp).2.size := by
    by_cases h : filp.f_pos ≥ (k.vfs_getattr filp).2.size
    · simp [DoomEof, hstat, h]
    · simp [DoomEof, hstat, h]
  refine ⟨?_, h2, ?_⟩
  · by_cases h : filp.f_pos ≥ (k.vfs_getattr filp).2.size
    · left; simp [DoomEof, hstat, h]
    · right; simp [DoomEof, hstat, h]
  · intro hi
    rw [h2]
    simp only [DoomTell, to_int_of_is_int hi]

/-- Witness for C3: cursor 12 on a 10-byte file. -/
theorem DoomEof_iff_witness :
    (DoomEof (test_kernel 0 10) (some { f_pos := 12, f_path := 1 }) = 1 ∨
      DoomEof (test_kernel 0 10) (some { f_pos := 12, f_path := 1 }) = 0) ∧
    (DoomEof (test_kernel 0 10) (some { f_pos := 12, f_path := 1 }) = 1 ↔
      (12 : Int) ≥ 10) ∧
    (is_int 12 →
      (DoomEof (test_kernel 0 10) (some { f_pos := 12, f_path := 1 }) = 1 ↔
        DoomTell (some { f_pos := 12, f_path := 1 }) ≥ 10)) :=
  DoomEof_iff (test_kernel 0 10) { f_pos := 12, f_path := 1 } rfl

/-- C2, evaluated where the code departs from it. `DoomRead` has no test of
`count`: with a non-null handle and buffer and a count of 0 or -1 it calls
`kernel_read` (the count -1 arriving as the `size_t` 2^64 - 1) and stores the
position back, where `DoomWrite` on the same arguments returns 0 without a
kernel call. -/
theorem DoomRead_nonpositive_count_reaches_kernel :
    (DoomRead (test_kernel 0 40) (some { f_pos := 7, f_path := 1 }) (some 4096) 0).calls =
      [kcall.kernel_read 0 7] ∧
    (DoomRead (test_kernel 0 40) (some { f_pos := 7, f_path := 1 }) (some 4096) (-1)).calls =
      [kcall.kernel_read 18446744073709551615 7] ∧
    DoomWrite (test_kernel 0 40) (some { f_pos := 7, f_path := 1 }) (some 4096) 0 =
      { ret := 0, filp := some { f_pos := 7, f_path := 1 }, calls := [] } ∧
    DoomWrite (test_kernel 0 40) (some { f_pos := 7, f_path := 1 }) (some 4096) (-1) =
      { ret := 0, filp := some { f_pos := 7, f_path := 1 }, calls := [] } := by
  refine ⟨?_, ?_, ?_, ?_⟩
  · simp [DoomRead, to_size_t]
  · simp [DoomRead, to_size_t]
  · simp [DoomWrite]
  · simp [DoomWrite]

/-- `DoomRead` calls `kernel_read` whenever handle and buffer are non-null,
whatever the count, and its result is then the kernel's. -/
theorem DoomRead_always_calls_kernel (k : Kernel) (filp : file) (b : Nat) (count : Int) :
    (DoomRead k (some filp) (some b) count).calls =
      [kcall.kernel_read (to_size_t count) filp.f_pos] ∧
    (DoomRead k (some filp) (some b) count).filp =
      some { filp with f_pos := (k.kernel_read filp b (to_size_t count) filp.f_pos).2 } := by
  simp [DoomRead]

/-- `DoomWrite` returns 0 on a null handle, a null buffer or a count that is
not positive, makes no kernel call and leaves the file object as it was. -/
theorem DoomWrite_guard (k : Kernel) (handle : Option file) (buf : Option Nat)
    (count : Int) (h : handle = none ∨ buf = none ∨ count ≤ 0) :
    DoomWrite k handle buf count = { ret := 0, filp := handle, calls := [] } := by
  cases handle with
  | none => rfl
  | some filp =>
    cases buf with
    | none => rfl
    | some b =>
      have hc : count ≤ 0 := by simpa using h
      simp [DoomWrite, hc]

/-- Witness for `DoomWrite_guard`: a count of -3. -/
theorem DoomWrite_guard_witness :
    DoomWrite (test_kernel 0 40) (some { f_pos := 7, f_path := 1 }) (some 4096) (-3) =
      { ret := 0, filp := some { f_pos := 7, f_path := 1 }, calls := [] } :=
  DoomWrite_guard (test_kernel 0 40) (some { f_pos := 7, f_path := 1 }) (some 4096) (-3)
    (Or.inr (Or.inr (by decide)))

/-- `DoomRead` returns 0 on a null handle or a null buffer, makes no kernel
call and leaves the file object as it was. -/
theorem DoomRead_guard (k : Kernel) (handle : Option file) (buf : Option Nat)
    (count : Int) (h : handle = none ∨ buf = none) :
    DoomRead k handle buf count = { ret := 0, filp := handle, calls := [] } := by
  cases handle with
  | none => rfl
  | some filp =>
    cases buf with
    | none => rfl
    | some b => simp at h

/-- Witness for `DoomRead_guard`: a null buffer. -/
theorem DoomRead_guard_witness :
    DoomRead (test_kernel 0 40) (some { f_pos := 7, f_path := 1 }) none 16 =
      { ret := 0, filp := some { f_pos := 7, f_path := 1 }, calls := [] } :=
  DoomRead_guard (test_kernel 0 40) (some { f_pos := 7, f_path := 1 }) none 16
    (Or.inr rfl)

/-! ## Environment lookup: properties -/

lemma strcmp_eq_zero_iff (a b : List Char) : strcmp a b = 0 ↔ a = b := by
  induction a generalizing b with
  | nil =>
    cases b with
    | nil => simp [strcmp]
    | cons c ct => simp [strcmp]
  | cons c cs ih =>
    cases b with
    | nil => simp [strcmp]
    | cons d ct =>
      by_cases hcd : c = d
      · simp [strcmp, hcd, ih]
      · by_cases hlt : c.toNat < d.toNat
        · simp [strcmp, hcd, hlt]
        · simp [strcmp, hcd, hlt]

/-- C9. `DoomGetEnv` returns the root string "/" if the name is exactly
"HOME" and null otherwise; `DoomGetEnv("HOME")` is "/" and
`DoomGetEnv("PATH")` is null. -/
theorem DoomGetEnv_spec (var : String) :
    DoomGetEnv var = (if var = "HOME" then some "/" else none) ∧
    DoomGetEnv "HOME" = some "/" ∧ DoomGetEnv "PATH" = none := by
  have key : ∀ v : String, DoomGetEnv v = (if v = "HOME" then some "/" else none) := by
    intro v
    unfold DoomGetEnv
    by_cases h : v = "HOME"
    · rw [if_pos h, if_pos ((strcmp_eq_zero_iff _ _).mpr (by rw [h]))]
      rfl
    · have hne : ¬ strcmp v.toList "HOME".toList = 0 :=
        fun hh => h (String.ext ((strcmp_eq_zero_iff _ _).mp hh))
      rw [if_neg h, if_neg hne]
  refine ⟨key var, ?_, ?_⟩
  · rw [key]; simp
  · rw [key]; simp

/-! ## Compositor: properties -/

lemma apply_writes_cons (p : Nat × Nat) (ws : List (Nat × Nat)) (m : Nat → Nat) :
    apply_writes (p :: ws) m = apply_writes ws (Function.update m p.1 p.2) := rfl

lemma apply_writes_append (ws ws2 : List (Nat × Nat)) (m : Nat → Nat) :
    apply_writes (ws ++ ws2) m = apply_writes ws2 (apply_writes ws m) := by
  unfold apply_writes
  rw [List.foldl_append]

/-- A cell no store addresses keeps its content. -/
lemma apply_writes_frame (ws : List (Nat × Nat)) (m : Nat → Nat) (j : Nat)
    (h : ∀ p ∈ ws, p.1 ≠ j) : apply_writes ws m j = m j := by
  induction ws generalizing m with
  | nil => rfl
  | cons p t ih =>
    rw [apply_writes_cons, ih _ (fun q hq => h q (List.mem_cons_of_mem _ hq))]
    have hp : j ≠ p.1 := fun e => h p (List.mem_cons_self _ _) e.symm
    exact Function.update_noteq hp _ _

/-- A cell that every store addressing it fills with `v` holds `v` in the
end, once one store addresses it. -/
lemma apply_writes_value (ws : List (Nat × Nat)) (m : Nat → Nat) (j v : Nat)
    (hv : ∀ p ∈ ws, p.1 = j → p.2 = v) (hex : m j = v ∨ ∃ p ∈ ws, p.1 = j) :
    apply_writes ws m j = v := by
  induction ws generalizing m with
  | nil =>
    rcases hex with h | ⟨p, hp, _⟩
    · exact h
    · cases hp
  | cons p t ih =>
    rw [apply_writes_cons]
    apply ih _ (fun q hq => hv q (List.mem_cons_of_mem _ hq))
    by_cases hp : p.1 = j
    · left
      rw [← hp, Function.update_same]
      exact hv p (List.mem_cons_self _ _) hp
    · have hj : j ≠ p.1 := fun e => hp e.symm
      rcases hex with h | ⟨q, hq, hqj⟩
      · left
        rw [Function.update_noteq hj]
        exact h
      · right
        rcases List.mem_cons.mp hq with e | hqt
        · exact absurd (e ▸ hqj) hp
        · exact ⟨q, hqt, hqj⟩

lemma blt_row_eq_apply_writes (fb_info : fb_info_kernel) (doom_pixels : Nat → Nat)
    (doom_width doom_height : Int) (scr : Nat → Nat) (y : Nat) :
    blt_row fb_info doom_pixels doom_width doom_height scr y =
      apply_writes
        ((List.range (to_uint doom_width)).map (fun x =>
          (screen_pos fb_info doom_width doom_height x y,
            doom_pixels (doom_pos doom_width x y)))) scr := by
  unfold blt_row apply_writes
  rw [List.foldl_map]

lemma foldl_blt_row_eq (fb_info : fb_info_kernel) (doom_pixels : Nat → Nat)
    (doom_width doom_height : Int) (ys : List Nat) (scr : Nat → Nat) :
    ys.foldl (blt_row fb_info doom_pixels doom_width doom_height) scr =
      apply_writes
        (ys.flatMap (fun y =>
          (List.range (to_uint doom_width)).map (fun x =>
            (screen_pos fb_info doom_width doom_height x y,
              doom_pixels (doom_pos doom_width x y))))) scr := by
  induction ys generalizing scr with
  | nil => rfl
  | cons y t ih =>
    rw [List.foldl_cons, ih, List.flatMap_cons, apply_writes_append,
      blt_row_eq_apply_writes]

/-- The display memory after the blit is the memory before it with the
stores of `blt_writes` carried out. -/
lemma blt_fb_virt (fb_info : fb_info_kernel) (doom_pixels : Nat → Nat)
    (doom_width doom_height : Int) :
    (doom_blt_to_framebuffer fb_info doom_pixels doom_width doom_height).fb_virt =
      apply_writes (blt_writes fb_info doom_pixels doom_width doom_height)
        fb_info.fb_virt := by
  unfold doom_blt_to_framebuffer blt_writes
  exact foldl_blt_row_eq _ _ _ _ _ _

lemma mem_blt_writes (fb_info : fb_info_kernel) (doom_pixels : Nat → Nat)
    (doom_width doom_height : Int) (p : Nat × Nat) :
    p ∈ blt_writes fb_info doom_pixels doom_width doom_height ↔
      ∃ y, y < to_uint doom_height ∧ ∃ x, x < to_uint doom_width ∧
        p = (screen_pos fb_info doom_width doom_height x y,
          doom_pixels (doom_pos doom_width x y)) := by
  unfold blt_writes
  simp only [List.mem_flatMap, List.mem_map, List.mem_range]
  constructor
  · rintro ⟨y, hy, x, hx, e⟩
    exact ⟨y, hy, x, hx, e.symm⟩
  · rintro ⟨y, hy, x, hx, e⟩
    exact ⟨y, hy, x, hx, e.symm⟩

/-! ### The blit without wrap-around -/

lemma to_uint_natCast (n : Nat) (h : n < 4294967296) : to_uint (n : Int) = n := by
  unfold to_uint
  omega

lemma uint_sub_of_le (a b : Nat) (hb : b ≤ a) (ha : a < 4294967296) :
    uint_sub a b = a - b := by
  unfold uint_sub to_uint
  omega

lemma uint_add_of_lt (a b : Nat) (h : a + b < 4294967296) : uint_add a b = a + b :=
  Nat.mod_eq_of_lt h

lemma uint_mul_of_lt (a b : Nat) (h : a * b < 4294967296) : uint_mul a b = a * b :=
  Nat.mod_eq_of_lt h

lemma start_x_exact (fb_info : fb_info_kernel) (w : Nat)
    (hW : fb_info.width < 4294967296) (hw : w ≤ fb_info.width) :
    start_x fb_info (w : Int) = (fb_info.width - w) / 2 := by
  unfold start_x
  rw [to_uint_natCast w (lt_of_le_of_lt hw hW), uint_sub_of_le _ _ hw hW]

lemma start_y_exact (fb_info : fb_info_kernel) (h : Nat)
    (hH : fb_info.height < 4294967296) (hh : h ≤ fb_info.height) :
    start_y fb_info (h : Int) = (fb_info.height - h) / 2 := by
  unfold start_y
  rw [to_uint_natCast h (lt_of_le_of_lt hh hH), uint_sub_of_le _ _ hh hH]

/-- Row `a` below `H` and column `b` below the stride give a cell index below
`H * stride`. -/
lemma cell_lt (a b H S : Nat) (ha : a < H) (hb : b < S) : a * S + b < H * S := by
  have h1 : (a + 1) * S ≤ H * S := Nat.mul_le_mul_right S ha
  rw [Nat.add_mul, Nat.one_mul] at h1
  omega

/-- A cell index determines its row and its column below the stride. -/
lemma cell_inj (a b a2 b2 S : Nat) (hb : b < S) (hb2 : b2 < S)
    (h : a * S + b = a2 * S + b2) : a = a2 ∧ b = b2 := by
  have hS : 0 < S := by omega
  have e1 : (a * S + b) / S = a := by
    rw [Nat.add_comm, Nat.add_mul_div_right _ _ hS, Nat.div_eq_of_lt hb, Nat.zero_add]
  have e2 : (a2 * S + b2) / S = a2 := by
    rw [Nat.add_comm, Nat.add_mul_div_right _ _ hS, Nat.div_eq_of_lt hb2, Nat.zero_add]
  have ha : a = a2 := by rw [← e1, ← e2, h]
  subst ha
  exact ⟨rfl, by omega⟩

/-- Without wrap-around the loop body computes the centred cell index and the
row-major source index. -/
lemma screen_pos_exact (fb_info : fb_info_kernel) (w h x y : Nat)
    (hW : fb_info.width < 4294967296) (hH : fb_info.height < 4294967296)
    (hstride : fb_info.width ≤ fb_info.line_length / 4)
    (hw : w ≤ fb_info.width) (hh : h ≤ fb_info.height) (hx : x < w) (hy : y < h)
    (hfit : ((fb_info.height - h) / 2 + y) * (fb_info.line_length / 4) +
      ((fb_info.width - w) / 2 + x) < 4294967296) :
    screen_pos fb_info (w : Int) (h : Int) x y =
        ((fb_info.height - h) / 2 + y) * (fb_info.line_length / 4) +
          ((fb_info.width - w) / 2 + x) ∧
    (fb_info.height - h) / 2 + y < fb_info.height ∧
    (fb_info.width - w) / 2 + x < fb_info.line_length / 4 ∧
    doom_pos (w : Int) x y = y * w + x := by
  have hA : (fb_info.height - h) / 2 + y < fb_info.height := by omega
  have hB : (fb_info.width - w) / 2 + x < fb_info.line_length / 4 := by omega
  have hmul : ((fb_info.height - h) / 2 + y) * (fb_info.line_length / 4) < 4294967296 := by
    omega
  have hsrc : y * w + x < 4294967296 := by
    have h1 : y * w ≤ ((fb_info.height - h) / 2 + y) * (fb_info.line_length / 4) :=
      Nat.mul_le_mul (Nat.le_add_left _ _) (le_trans hw hstride)
    omega
  have hyw : y * w < 4294967296 := by omega
  refine ⟨?_, hA, hB, ?_⟩
  · unfold screen_pos
    rw [start_x_exact _ _ hW hw, start_y_exact _ _ hH hh,
      uint_add_of_lt _ y (by omega), uint_add_of_lt _ x (by omega),
      uint_mul_of_lt _ _ hmul, uint_add_of_lt _ _ (by omega)]
  · unfold doom_pos
    rw [to_uint_natCast w (by omega), uint_mul_of_lt _ _ hyw, uint_add_of_lt _ _ hsrc]

/-- On a surface of at most 2^32 cells a 32-bit index reaches every cell of
the centred rectangle. -/
lemma rectangle_fits (fb_info : fb_info_kernel) (w h : Nat)
    (hstride : fb_info.width ≤ fb_info.line_length / 4)
    (hcells : fb_info.height * (fb_info.line_length / 4) ≤ 4294967296)
    (hw : w ≤ fb_info.width) (hh : h ≤ fb_info.height) (x y : Nat)
    (hx : x < w) (hy : y < h) :
    ((fb_info.height - h) / 2 + y) * (fb_info.line_length / 4) +
      ((fb_info.width - w) / 2 + x) < 4294967296 := by
  have hA : (fb_info.height - h) / 2 + y < fb_info.height := by omega
  have hB : (fb_info.width - w) / 2 + x < fb_info.line_length / 4 := by omega
  exact lt_of_lt_of_le (cell_lt _ _ _ _ hA hB) hcells

/-- The blit when a 32-bit index reaches every cell of the centred rectangle:
every source pixel is in its centred cell afterwards. -/
lemma blt_centered (fb_info : fb_info_kernel) (doom_pixels : Nat → Nat) (w h : Nat)
    (hW : fb_info.width < 4294967296) (hH : fb_info.height < 4294967296)
    (hstride : fb_info.width ≤ fb_info.line_length / 4)
    (hfit : ∀ x y, x < w → y < h →
      ((fb_info.height - h) / 2 + y) * (fb_info.line_length / 4) +
        ((fb_info.width - w) / 2 + x) < 4294967296)
    (hw : w ≤ fb_info.width) (hh : h ≤ fb_info.height) (x y : Nat)
    (hx : x < w) (hy : y < h) :
    (doom_blt_to_framebuffer fb_info doom_pixels (w : Int) (h : Int)).fb_virt
        (((fb_info.height - h) / 2 + y) * (fb_info.line_length / 4) +
          ((fb_info.width - w) / 2 + x)) =
      doom_pixels (y * w + x) := by
  have hwu : to_uint (w : Int) = w := to_uint_natCast w (by omega)
  have hhu : to_uint (h : Int) = h := to_uint_natCast h (by omega)
  obtain ⟨hsp, _, hB, hdp⟩ :=
    screen_pos_exact fb_info w h x y hW hH hstride hw hh hx hy (hfit x y hx hy)
  rw [blt_fb_virt]
  apply apply_writes_value
  · intro p hp hpj
    rw [mem_blt_writes, hwu, hhu] at hp
    obtain ⟨y2, hy2, x2, hx2, rfl⟩ := hp
    obtain ⟨hsp2, _, hB2, hdp2⟩ :=
      screen_pos_exact fb_info w h x2 y2 hW hH hstride hw hh hx2 hy2 (hfit x2 y2 hx2 hy2)
    simp only at hpj
    rw [hsp2] at hpj
    obtain ⟨e1, e2⟩ := cell_inj _ _ _ _ _ hB2 hB hpj
    have ey : y2 = y := by omega
    have ex : x2 = x := by omega
    subst ey ex
    simp only [hdp]
  · right
    refine ⟨(screen_pos fb_info (w : Int) (h : Int) x y,
      doom_pixels (doom_pos (w : Int) x y)), ?_, hsp⟩
    rw [mem_blt_writes, hwu, hhu]
    exact ⟨y, hy, x, hx, rfl⟩

/-- C5 as stated fails on a surface with more than 2^32 cells: on a surface
one pixel wide and 131072 rows high with a stride of 65536 cells, a 1 x 2
source has its pixel (0, 1) due at row 65536, column 0, cell 2^32; the 32-bit
index wraps to 0, so cell 2^32 keeps its content and cell 0 takes the pixel. -/
theorem doom_blt_to_framebuffer_wrap_counterexample :
    tall_surface.width ≤ tall_surface.line_length / 4 ∧
    (1 : Nat) ≤ tall_surface.width ∧ (2 : Nat) ≤ tall_surface.height ∧
    ((tall_surface.height - 2) / 2 + 1) * (tall_surface.line_length / 4) +
      ((tall_surface.width - 1) / 2 + 0) = 4294967296 ∧
    (doom_blt_to_framebuffer tall_surface ramp 1 2).fb_virt 4294967296 ≠ ramp (1 * 1 + 0) ∧
    (doom_blt_to_framebuffer tall_surface ramp 1 2).fb_virt 0 = ramp (1 * 1 + 0) := by
  refine ⟨by decide, by decide, by decide, by decide, ?_, ?_⟩
  · decide
  · decide

/-- C5, amended. For a surface of width W, height H (both `unsigned int`) and
byte stride L with L/4 >= W, and a source of w x h pixels with w <= W and
h <= H, such that a 32-bit index reaches the cells of the centred rectangle
((offY + y) * (L/4) + (offX + x) < 2^32 for all x < w, y < h, as is the case
whenever H * (L/4) <= 2^32): the offsets are offX = (W - w)/2 and
offY = (H - h)/2, and after the blit the cell (offY + y) * (L/4) + (offX + x)
holds source pixel y*w + x for all x < w, y < h.  For W = 1920, H = 1080 and
the 320 x 200 source the drive loop passes, the offset is (800, 440) and
source pixel (0,0) is in row 440, column 800. -/
theorem doom_blt_to_framebuffer_centered (fb_info : fb_info_kernel)
    (doom_pixels : Nat → Nat) (w h : Nat)
    (hW : fb_info.width < 4294967296) (hH : fb_info.height < 4294967296)
    (hstride : fb_info.width ≤ fb_info.line_length / 4)
    (hfit : ∀ x y, x < w → y < h →
      ((fb_info.height - h) / 2 + y) * (fb_info.line_length / 4) +
        ((fb_info.width - w) / 2 + x) < 4294967296)
    (hw : w ≤ fb_info.width) (hh : h ≤ fb_info.height) :
    start_x fb_info (w : Int) = (fb_info.width - w) / 2 ∧
    start_y fb_info (h : Int) = (fb_info.height - h) / 2 ∧
    (∀ x y, x < w → y < h →
      (doom_blt_to_framebuffer fb_info doom_pixels (w : Int) (h : Int)).fb_virt
          (((fb_info.height - h) / 2 + y) * (fb_info.line_length / 4) +
            ((fb_info.width - w) / 2 + x)) =
        doom_pixels (y * w + x)) ∧
    (fb_info.width = 1920 → fb_info.height = 1080 → w = 320 → h = 200 →
      start_x fb_info 320 = 800 ∧ start_y fb_info 200 = 440 ∧
      (doom_thread_blt fb_info doom_pixels).fb_virt
          (440 * (fb_info.line_length / 4) + 800) = doom_pixels 0) := by
  refine ⟨start_x_exact _ _ hW hw, start_y_exact _ _ hH hh, ?_, ?_⟩
  · intro x y hx hy
    exact blt_centered fb_info doom_pixels w h hW hH hstride hfit hw hh x y hx hy
  · intro e1 e2 ew eh
    subst ew eh
    have hx := start_x_exact fb_info 320 hW hw
    have hy := start_y_exact fb_info 200 hH hh
    have hb := blt_centered fb_info doom_pixels 320 200 hW hH hstride hfit hw hh 0 0
      (by decide) (by decide)
    rw [e1, e2] at hb
    rw [e1] at hx
    rw [e2] at hy
    exact ⟨hx, hy, hb⟩

/-- Witness for C5: the 320 x 200 source on a packed 1920 x 1080 surface. -/
theorem doom_blt_to_framebuffer_centered_witness :
    start_x hd_surface 320 = 800 ∧ start_y hd_surface 200 = 440 ∧
    (doom_thread_blt hd_surface ramp).fb_virt (440 * (hd_surface.line_length / 4) + 800) =
      ramp 0 :=
  (doom_blt_to_framebuffer_centered hd_surface ramp 320 200 (by decide) (by decide)
    (by decide)
    (by
      intro x y hx hy
      have h1 : (hd_surface.height - 200) / 2 = 440 := by decide
      have h2 : hd_surface.line_length / 4 = 1920 := by decide
      have h3 : (hd_surface.width - 320) / 2 = 800 := by decide
      rw [h1, h2, h3]
      omega)
    (by decide) (by decide)).2.2.2 rfl rfl rfl rfl

/-- C10 as stated fails on a surface with more than 2^32 cells: on a packed
65536 x 131072 surface a 1 x 2 source is due in rows 65535 and 65536 of column
32767; the index of the second store wraps to 32767, so the cell in row 0,
column 32767, which lies outside the centred rectangle, is changed. -/
theorem doom_blt_to_framebuffer_frame_counterexample :
    huge_surface.width ≤ huge_surface.line_length / 4 ∧
    (1 : Nat) ≤ huge_surface.width ∧ (2 : Nat) ≤ huge_surface.height ∧
    (huge_surface.height - 2) / 2 = 65535 ∧ (huge_surface.width - 1) / 2 = 32767 ∧
    (doom_blt_to_framebuffer huge_surface ramp 1 2).fb_virt 32767 ≠
      huge_surface.fb_virt 32767 ∧
    ¬ (∃ r c, 32767 = r * (huge_surface.line_length / 4) + c ∧
        65535 ≤ r ∧ r < 65535 + 2 ∧ 32767 ≤ c ∧ c < 32767 + 1) := by
  refine ⟨by decide, by decide, by decide, by decide, by decide, by decide, ?_⟩
  rintro ⟨r, c, h1, h2, _, _, _⟩
  have h3 : huge_surface.line_length / 4 = 65536 := by decide
  rw [h3] at h1
  omega

/-- C10, amended. For a surface of width W, height H (both `unsigned int`) and
byte stride L with L/4 >= W, and a source of w x h pixels with w <= W and
h <= H, such that a 32-bit index reaches the cells of the centred rectangle
((offY + y) * (L/4) + (offX + x) < 2^32 for all x < w, y < h, as is the case
whenever H * (L/4) <= 2^32): every cell that is not at a row r and column c
of the centred rectangle (offY <= r < offY + h, offX <= c < offX + w, index
r * (L/4) + c) keeps its content, the geometry fields keep their values, and
every index the loops store to, hence every cell that changes, is below
H * (L/4). -/
theorem doom_blt_to_framebuffer_frame (fb_info : fb_info_kernel)
    (doom_pixels : Nat → Nat) (w h : Nat)
    (hW : fb_info.width < 4294967296) (hH : fb_info.height < 4294967296)
    (hstride : fb_info.width ≤ fb_info.line_length / 4)
    (hfit : ∀ x y, x < w → y < h →
      ((fb_info.height - h) / 2 + y) * (fb_info.line_length / 4) +
        ((fb_info.width - w) / 2 + x) < 4294967296)
    (hw : w ≤ fb_info.width) (hh : h ≤ fb_info.height) :
    (∀ j,
      (¬ ∃ r c, j = r * (fb_info.line_length / 4) + c ∧
        (fb_info.height - h) / 2 ≤ r ∧ r < (fb_info.height - h) / 2 + h ∧
        (fb_info.width - w) / 2 ≤ c ∧ c < (fb_info.width - w) / 2 + w) →
      (doom_blt_to_framebuffer fb_info doom_pixels (w : Int) (h : Int)).fb_virt j =
        fb_info.fb_virt j) ∧
    ((doom_blt_to_framebuffer fb_info doom_pixels (w : Int) (h : Int)).width =
        fb_info.width ∧
      (doom_blt_to_framebuffer fb_info doom_pixels (w : Int) (h : Int)).height =
        fb_info.height ∧
      (doom_blt_to_framebuffer fb_info doom_pixels (w : Int) (h : Int)).bpp =
        fb_info.bpp ∧
      (doom_blt_to_framebuffer fb_info doom_pixels (w : Int) (h : Int)).line_length =
        fb_info.line_length) ∧
    (∀ p ∈ blt_writes fb_info doom_pixels (w : Int) (h : Int),
      p.1 < fb_info.height * (fb_info.line_length / 4)) ∧
    (∀ j,
      (doom_blt_to_framebuffer fb_info doom_pixels (w : Int) (h : Int)).fb_virt j ≠
        fb_info.fb_virt j →
      j < fb_info.height * (fb_info.line_length / 4)) := by
  have hwu : to_uint (w : Int) = w := to_uint_natCast w (by omega)
  have hhu : to_uint (h : Int) = h := to_uint_natCast h (by omega)
  have hframe : ∀ j,
      (¬ ∃ r c, j = r * (fb_info.line_length / 4) + c ∧
        (fb_info.height - h) / 2 ≤ r ∧ r < (fb_info.height - h) / 2 + h ∧
        (fb_info.width - w) / 2 ≤ c ∧ c < (fb_info.width - w) / 2 + w) →
      (doom_blt_to_framebuffer fb_info doom_pixels (w : Int) (h : Int)).fb_virt j =
        fb_info.fb_virt j := by
    intro j hj
    rw [blt_fb_virt]
    apply apply_writes_frame
    intro p hp e
    apply hj
    rw [mem_blt_writes, hwu, hhu] at hp
    obtain ⟨y, hy, x, hx, rfl⟩ := hp
    obtain ⟨hsp, _, _, _⟩ :=
      screen_pos_exact fb_info w h x y hW hH hstride hw hh hx hy (hfit x y hx hy)
    simp only at e
    rw [hsp] at e
    exact ⟨(fb_info.height - h) / 2 + y, (fb_info.width - w) / 2 + x, e.symm,
      by omega, by omega, by omega, by omega⟩
  refine ⟨hframe, ⟨rfl, rfl, rfl, rfl⟩, ?_, ?_⟩
  · intro p hp
    rw [mem_blt_writes, hwu, hhu] at hp
    obtain ⟨y, hy, x, hx, rfl⟩ := hp
    obtain ⟨hsp, hA, hB, _⟩ :=
      screen_pos_exact fb_info w h x y hW hH hstride hw hh hx hy (hfit x y hx hy)
    simp only
    rw [hsp]
    exact cell_lt _ _ _ _ hA hB
  · intro j hj
    by_contra hlt
    apply hj
    apply hframe
    rintro ⟨r, c, rfl, _, hr, _, hc⟩
    exact hlt (cell_lt r c _ _ (by omega) (by omega))

/-- Witness for C10: the 320 x 200 source on a packed 1920 x 1080 surface
leaves cell 0 (row 0, column 0) as it was. -/
theorem doom_blt_to_framebuffer_frame_witness :
    (doom_blt_to_framebuffer hd_surface ramp 320 200).fb_virt 0 = hd_surface.fb_virt 0 :=
  (doom_blt_to_framebuffer_frame hd_surface ramp 320 200 (by decide) (by decide)
    (by decide)
    (by
      intro x y hx hy
      have h1 : (hd_surface.height - 200) / 2 = 440 := by decide
      have h2 : hd_surface.line_length / 4 = 1920 := by decide
      have h3 : (hd_surface.width - 320) / 2 = 800 := by decide
      rw [h1, h2, h3]
      omega)
    (by decide) (by decide)).1 0
    (by
      rintro ⟨r, c, h1, h2, _, _, _⟩
      have h3 : (hd_surface.height - 200) / 2 = 440 := by decide
      have h4 : hd_surface.line_length / 4 = 1920 := by decide
      rw [h3] at h2
      rw [h4] at h1
      omega)

/-! ### The blit on one memory -/

lemma copy_cells_cons (p : Nat × Nat) (ps : List (Nat × Nat)) (m : Nat → Nat) :
    copy_cells (p :: ps) m = copy_cells ps (Function.update m p.1 (m p.2)) := rfl

lemma copy_cells_append (ps ps2 : List (Nat × Nat)) (m : Nat → Nat) :
    copy_cells (ps ++ ps2) m = copy_cells ps2 (copy_cells ps m) := by
  unfold copy_cells
  rw [List.foldl_append]

/-- When no copy stores to a cell a copy reads, the copies are stores of the
contents the cells read had at the start. -/
lemma copy_cells_eq_apply_writes (ps : List (Nat × Nat)) (m : Nat → Nat)
    (hmiss : ∀ p ∈ ps, ∀ q ∈ ps, p.1 ≠ q.2) :
    copy_cells ps m = apply_writes (ps.map (fun p => (p.1, m p.2))) m := by
  induction ps generalizing m with
  | nil => rfl
  | cons p t ih =>
    rw [copy_cells_cons, List.map_cons, apply_writes_cons,
      ih _ (fun a ha b hb =>
        hmiss a (List.mem_cons_of_mem _ ha) b (List.mem_cons_of_mem _ hb))]
    have hmap : t.map (fun q => (q.1, Function.update m p.1 (m p.2) q.2)) =
        t.map (fun q => (q.1, m q.2)) := by
      apply List.map_congr_left
      intro q hq
      have hne : q.2 ≠ p.1 := fun e =>
        hmiss p (List.mem_cons_self _ _) q (List.mem_cons_of_mem _ hq) e.symm
      simp only [Function.update_noteq hne]
    rw [hmap]

lemma blt_row_mem_eq_copy_cells (fb_info : fb_info_kernel)
    (screen_pixels doom_pixels : Nat) (doom_width doom_height : Int)
    (mem : Nat → Nat) (y : Nat) :
    blt_row_mem fb_info screen_pixels doom_pixels doom_width doom_height mem y =
      copy_cells
        ((List.range (to_uint doom_width)).map (fun x =>
          (screen_pixels + screen_pos fb_info doom_width doom_height x y,
            doom_pixels + doom_pos doom_width x y))) mem := by
  unfold blt_row_mem copy_cells
  rw [List.foldl_map]

lemma foldl_blt_row_mem_eq (fb_info : fb_info_kernel)
    (screen_pixels doom_pixels : Nat) (doom_width doom_height : Int)
    (ys : List Nat) (mem : Nat → Nat) :
    ys.foldl (blt_row_mem fb_info screen_pixels doom_pixels doom_width doom_height) mem =
      copy_cells
        (ys.flatMap (fun y =>
          (List.range (to_uint doom_width)).map (fun x =>
            (screen_pixels + screen_pos fb_info doom_width doom_height x y,
              doom_pixels + doom_pos doom_width x y)))) mem := by
  induction ys generalizing mem with
  | nil => rfl
  | cons y t ih =>
    rw [List.foldl_cons, ih, List.flatMap_cons, copy_cells_append,
      blt_row_mem_eq_copy_cells]

/-- The blit on one memory is the copies of `blt_copies` made in order. -/
lemma blt_mem_eq_copy_cells (fb_info : fb_info_kernel)
    (screen_pixels doom_pixels : Nat) (doom_width doom_height : Int)
    (mem : Nat → Nat) :
    doom_blt_to_framebuffer_mem fb_info screen_pixels doom_pixels doom_width
        doom_height mem =
      copy_cells (blt_copies fb_info screen_pixels doom_pixels doom_width doom_height)
        mem := by
  unfold doom_blt_to_framebuffer_mem blt_copies
  exact foldl_blt_row_mem_eq _ _ _ _ _ _ _

lemma mem_blt_copies (fb_info : fb_info_kernel) (screen_pixels doom_pixels : Nat)
    (doom_width doom_height : Int) (p : Nat × Nat) :
    p ∈ blt_copies fb_info screen_pixels doom_pixels doom_width doom_height ↔
      ∃ y, y < to_uint doom_height ∧ ∃ x, x < to_uint doom_width ∧
        p = (screen_pixels + screen_pos fb_info doom_width doom_height x y,
          doom_pixels + doom_pos doom_width x y) := by
  unfold blt_copies
  simp only [List.mem_flatMap, List.mem_map, List.mem_range]
  constructor
  · rintro ⟨y, hy, x, hx, e⟩
    exact ⟨y, hy, x, hx, e.symm⟩
  · rintro ⟨y, hy, x, hx, e⟩
    exact ⟨y, hy, x, hx, e.symm⟩

/-- Stores at addresses counted from `base` are the stores at the indices,
seen through the window that starts at `base`. -/
lemma apply_writes_shift (base : Nat) (ws : List (Nat × Nat)) (m : Nat → Nat) (j : Nat) :
    apply_writes (ws.map (fun p => (base + p.1, p.2))) m (base + j) =
      apply_writes ws (fun i => m (base + i)) j := by
  induction ws generalizing m with
  | nil => rfl
  | cons p t ih =>
    rw [List.map_cons, apply_writes_cons, apply_writes_cons, ih]
    have hwin : (fun i => Function.update m (base + p.1) p.2 (base + i)) =
        Function.update (fun i => m (base + i)) p.1 p.2 := by
      funext i
      by_cases hi : i = p.1
      · subst hi
        simp only [Function.update_same]
      · have hne : base + i ≠ base + p.1 := fun e => hi (Nat.add_left_cancel e)
        simp only [Function.update_noteq hne, Function.update_noteq hi]
    rw [hwin]

/-- The two embeddings of the blit agree on the surface: when no store of the
blit falls on a cell it reads, the surface after the blit on one memory is the
display memory the two-memory embedding gives, started from the surface and
the source as that memory holds them. -/
lemma blt_mem_surface_view (fb_info : fb_info_kernel) (screen_pixels doom_pixels : Nat)
    (doom_width doom_height : Int) (mem : Nat → Nat)
    (hmiss : ∀ p ∈ blt_copies fb_info screen_pixels doom_pixels doom_width doom_height,
      ∀ q ∈ blt_copies fb_info screen_pixels doom_pixels doom_width doom_height,
        p.1 ≠ q.2) (j : Nat) :
    doom_blt_to_framebuffer_mem fb_info screen_pixels doom_pixels doom_width
        doom_height mem (screen_pixels + j) =
      (doom_blt_to_framebuffer
        { fb_info with fb_virt := fun i => mem (screen_pixels + i) }
        (fun i => mem (doom_pixels + i)) doom_width doom_height).fb_virt j := by
  rw [blt_mem_eq_copy_cells, copy_cells_eq_apply_writes _ _ hmiss, blt_fb_virt]
  have hws : (blt_copies fb_info screen_pixels doom_pixels doom_width doom_height).map
        (fun p => (p.1, mem p.2)) =
      (blt_writes { fb_info with fb_virt := fun i => mem (screen_pixels + i) }
        (fun i => mem (doom_pixels + i)) doom_width doom_height).map
        (fun p => (screen_pixels + p.1, p.2)) := by
    unfold blt_copies blt_writes
    simp only [List.map_flatMap, List.map_map]
    rfl
  rw [hws, apply_writes_shift]

/-- In bounds and without wrap-around, every store of the blit stays inside
the surface and every read inside the source; with the source outside the
surface no store falls on a cell the blit reads. -/
lemma blt_copies_miss (fb_info : fb_info_kernel) (screen_pixels doom_pixels : Nat)
    (w h : Nat)
    (hW : fb_info.width < 4294967296) (hH : fb_info.height < 4294967296)
    (hstride : fb_info.width ≤ fb_info.line_length / 4)
    (hfit : ∀ x y, x < w → y < h →
      ((fb_info.height - h) / 2 + y) * (fb_info.line_length / 4) +
        ((fb_info.width - w) / 2 + x) < 4294967296)
    (hw : w ≤ fb_info.width) (hh : h ≤ fb_info.height)
    (hdisj : ∀ i j, i < h * w → j < fb_info.height * (fb_info.line_length / 4) →
      doom_pixels + i ≠ screen_pixels + j) :
    ∀ p ∈ blt_copies fb_info screen_pixels doom_pixels (w : Int) (h : Int),
      ∀ q ∈ blt_copies fb_info screen_pixels doom_pixels (w : Int) (h : Int),
        p.1 ≠ q.2 := by
  have hwu : to_uint (w : Int) = w := to_uint_natCast w (by omega)
  have hhu : to_uint (h : Int) = h := to_uint_natCast h (by omega)
  intro p hp q hq e
  rw [mem_blt_copies, hwu, hhu] at hp hq
  obtain ⟨y, hy, x, hx, rfl⟩ := hp
  obtain ⟨y2, hy2, x2, hx2, rfl⟩ := hq
  obtain ⟨hsp, hA, hB, _⟩ :=
    screen_pos_exact fb_info w h x y hW hH hstride hw hh hx hy (hfit x y hx hy)
  obtain ⟨_, _, _, hdp⟩ :=
    screen_pos_exact fb_info w h x2 y2 hW hH hstride hw hh hx2 hy2 (hfit x2 y2 hx2 hy2)
  simp only at e
  rw [hsp, hdp] at e
  exact hdisj _ _ (cell_lt y2 x2 h w hy2 hx2) (cell_lt _ _ _ _ hA hB) e.symm

/-- Under the conditions of C5 and C10, with the source outside the surface,
the two-memory embedding is what the blit on one memory does to the surface. -/
lemma blt_mem_surface_view_in_bounds (fb_info : fb_info_kernel)
    (screen_pixels doom_pixels : Nat) (w h : Nat) (mem : Nat → Nat)
    (hW : fb_info.width < 4294967296) (hH : fb_info.height < 4294967296)
    (hstride : fb_info.width ≤ fb_info.line_length / 4)
    (hfit : ∀ x y, x < w → y < h →
      ((fb_info.height - h) / 2 + y) * (fb_info.line_length / 4) +
        ((fb_info.width - w) / 2 + x) < 4294967296)
    (hw : w ≤ fb_info.width) (hh : h ≤ fb_info.height)
    (hdisj : ∀ i j, i < h * w → j < fb_info.height * (fb_info.line_length / 4) →
      doom_pixels + i ≠ screen_pixels + j) (j : Nat) :
    doom_blt_to_framebuffer_mem fb_info screen_pixels doom_pixels (w : Int) (h : Int)
        mem (screen_pixels + j) =
      (doom_blt_to_framebuffer
        { fb_info with fb_virt := fun i => mem (screen_pixels + i) }
        (fun i => mem (doom_pixels + i)) (w : Int) (h : Int)).fb_virt j :=
  blt_mem_surface_view fb_info screen_pixels doom_pixels (w : Int) (h : Int) mem
    (blt_copies_miss fb_info screen_pixels doom_pixels w h hW hH hstride hfit hw hh hdisj)
    j

lemma to_int_PTR_ERR (e : Fin 4095) : to_int (PTR_ERR e) = -((e.val : Int) + 1) := by
  have h := e.isLt
  unfold to_int PTR_ERR
  omega

/-- C7. When the input handler has been registered and acquiring the display
surface fails (opening /dev/fb0 fails, the framebuffer info is null, `ioremap`
fails, or `init_fb` fails), `unix_doom_init` returns a non-zero value, its
last action before returning is `input_unregister_handler` (the registration
being earlier in the run), and neither `doom_init` nor `kthread_create` nor
`wake_up_process` is called. -/
theorem unix_doom_init_display_failure (env : init_env)
    (hreg : env.input_register_handler = 0)
    (hfail : (∃ e, env.filp_open = Except.error e) ∨ env.filp_open = Except.ok none ∨
      env.ioremap = none ∨ env.kmalloc = false) :
    (unix_doom_init env).ret ≠ 0 ∧
    (unix_doom_init env).trace.getLast? = some kevent.input_unregister_handler ∧
    kevent.input_register_handler 0 ∈ (unix_doom_init env).trace.dropLast ∧
    kevent.doom_init ∉ (unix_doom_init env).trace ∧
    (∀ ok, kevent.kthread_create ok ∉ (unix_doom_init env).trace) ∧
    kevent.wake_up_process ∉ (unix_doom_init env).trace := by
  obtain ⟨reg, fo, io, km, kt⟩ := env
  simp only at hreg hfail
  subst hreg
  cases fo with
  | error e =>
    have hne : to_int (PTR_ERR e) ≠ 0 := by
      rw [to_int_PTR_ERR]
      omega
    simp [unix_doom_init, hne]
  | ok pd =>
    cases pd with
    | none => simp [unix_doom_init, ENOMEM]
    | some fb =>
      cases io with
      | none => simp [unix_doom_init, ENOMEM]
      | some mem =>
        cases km with
        | false => simp [unix_doom_init, init_fb, ENOMEM]
        | true => simp at hfail

/-- Witness for C7: a run in which /dev/fb0 cannot be opened. -/
theorem unix_doom_init_display_failure_witness :
    (unix_doom_init env_open_fails).ret ≠ 0 ∧
    (unix_doom_init env_open_fails).trace.getLast? =
      some kevent.input_unregister_handler ∧
    kevent.input_register_handler 0 ∈ (unix_doom_init env_open_fails).trace.dropLast ∧
    kevent.doom_init ∉ (unix_doom_init env_open_fails).trace ∧
    (∀ ok, kevent.kthread_create ok ∉ (unix_doom_init env_open_fails).trace) ∧
    kevent.wake_up_process ∉ (unix_doom_init env_open_fails).trace :=
  unix_doom_init_display_failure env_open_fails rfl (Or.inl ⟨1, rfl⟩)

/-- C8, evaluated where the code departs from it.  When `init_fb` fails after
a successful `ioremap`, `unix_doom_init` returns `-ENOMEM` having closed the
file and unregistered the handler, but `iounmap` is never called.  When
`kthread_create` fails, it returns the error having only unregistered the
handler: the file is not closed, the mapping not unmapped and the descriptor
not freed. -/
theorem unix_doom_init_unwind_incomplete :
    (unix_doom_init env_init_fb_fails).ret = -12 ∧
    (unix_doom_init env_init_fb_fails).trace =
      [kevent.printk "Module loaded\n", kevent.input_register_handler 0,
        kevent.filp_open true, kevent.printk "Found framebuffer: %s\n",
        kevent.printk "Resolution: %dx%d, %dbpp\n", kevent.ioremap true,
        kevent.printk "unix_doom_init: fb_init = %p\n", kevent.kmalloc false,
        kevent.printk "Failed to initialize framebuffer\n", kevent.filp_close,
        kevent.input_unregister_handler] ∧
    kevent.iounmap ∉ (unix_doom_init env_init_fb_fails).trace ∧
    (unix_doom_init env_kthread_fails).ret = -12 ∧
    (unix_doom_init env_kthread_fails).trace =
      [kevent.printk "Module loaded\n", kevent.input_register_handler 0,
        kevent.filp_open true, kevent.printk "Found framebuffer: %s\n",
        kevent.printk "Resolution: %dx%d, %dbpp\n", kevent.ioremap true,
        kevent.printk "unix_doom_init: fb_init = %p\n", kevent.kmalloc true,
        kevent.doom_set_file_io, kevent.doom_set_malloc, kevent.doom_set_exit,
        kevent.doom_set_getenv, kevent.doom_set_gettime, kevent.doom_set_print,
        kevent.doom_init, kevent.kthread_create false,
        kevent.printk "Failed to start DOOM thread\n",
        kevent.input_unregister_handler] ∧
    kevent.filp_close ∉ (unix_doom_init env_kthread_fails).trace ∧
    kevent.iounmap ∉ (unix_doom_init env_kthread_fails).trace ∧
    kevent.kfree ∉ (unix_doom_init env_kthread_fails).trace := by
  refine ⟨by decide, by decide, by decide, by decide, by decide, by decide, by decide,
    by decide⟩

end UnixDOOM
